import Mathlib

/-!
Verification of the model-metadata cache of go-copilot-api.

The embedding translates `internal/copilot/models.go` (the ModelsCache and
its operations) and the proxy-selection part of the config loader. Bytes are
modelled as `List Char`, timestamps as `Nat`, the file system as a partial
map from paths to contents, and the environment of a refresh (token provider,
request construction, HTTP transport) as an explicit record of outcomes.

Go's `encoding/json.Unmarshal(data, &js)` with `js : interface{}` succeeds
exactly when `data` is one well-formed JSON value surrounded by optional
whitespace; `jsonValid` below is a fuel-indexed recursive-descent
well-formedness checker for that grammar.
-/

namespace Copilot

/-- Whitespace accepted by the JSON grammar (space, tab, newline, carriage return). -/
def isWs (c : Char) : Bool :=
  c == ' ' || c == '\t' || c == '\n' || c == '\r'

/-- Drop leading JSON whitespace. -/
def skipWs : List Char → List Char
  | [] => []
  | c :: rest => if isWs c then skipWs rest else c :: rest

/-- Hexadecimal digit, as accepted in a \u escape. -/
def isHex (c : Char) : Bool :=
  if c.isDigit then true
  else if 'a' ≤ c ∧ c ≤ 'f' then true
  else if 'A' ≤ c ∧ c ≤ 'F' then true
  else false

/-- Expect the literal characters `lit` at the head of the input; returns the rest. -/
def expectLit : List Char → List Char → Option (List Char)
  | [], s => some s
  | _ :: _, [] => none
  | c :: cs, d :: ds => if c = d then expectLit cs ds else none

/-- Drop leading decimal digits. -/
def dropDigits : List Char → List Char
  | [] => []
  | c :: rest => if c.isDigit then dropDigits rest else c :: rest

/-- Optional exponent part of a JSON number. -/
def pExp : List Char → Option (List Char)
  | [] => some []
  | c :: rest =>
    if c = 'e' ∨ c = 'E' then
      let r2 := match rest with
        | k :: r => if k = '+' ∨ k = '-' then r else k :: r
        | [] => []
      match r2 with
      | d :: r3 => if d.isDigit then some (dropDigits r3) else none
      | [] => none
    else some (c :: rest)

/-- Optional fraction part of a JSON number, then the exponent part. -/
def pFrac : List Char → Option (List Char)
  | '.' :: rest =>
    (match rest with
     | d :: r2 => if d.isDigit then pExp (dropDigits r2) else none
     | [] => none)
  | s => pExp s

/-- A JSON number starting at the head of the input (possibly with a minus sign). -/
def pNumber (s : List Char) : Option (List Char) :=
  let s1 := match s with
    | '-' :: r => r
    | _ => s
  match s1 with
  | c :: rest =>
    if c = '0' then pFrac rest
    else if c.isDigit then pFrac (dropDigits rest)
    else none
  | [] => none

/-- The body of a JSON string, after the opening quote; consumes the closing quote. -/
def pString : Nat → List Char → Option (List Char)
  | 0, _ => none
  | _ + 1, [] => none
  | fuel + 1, c :: rest =>
    if c = '"' then some rest
    else if c = '\\' then
      match rest with
      | [] => none
      | e :: r2 =>
        if e = '"' ∨ e = '\\' ∨ e = '/' ∨ e = 'b' ∨ e = 'f' ∨ e = 'n' ∨ e = 'r' ∨ e = 't' then
          pString fuel r2
        else if e = 'u' then
          match r2 with
          | a :: b :: c2 :: d :: r3 =>
            if isHex a ∧ isHex b ∧ isHex c2 ∧ isHex d then pString fuel r3 else none
          | _ => none
        else none
    else if c.toNat < 32 then none
    else pString fuel rest

mutual

/-- One JSON value starting at the head of the input (no leading whitespace). -/
def pValue : Nat → List Char → Option (List Char)
  | 0, _ => none
  | _ + 1, [] => none
  | fuel + 1, c :: rest =>
    if c = 'n' then expectLit ['u', 'l', 'l'] rest
    else if c = 't' then expectLit ['r', 'u', 'e'] rest
    else if c = 'f' then expectLit ['a', 'l', 's', 'e'] rest
    else if c = '"' then pString fuel rest
    else if c = '-' ∨ c.isDigit then pNumber (c :: rest)
    else if c = '[' then
      match skipWs rest with
      | ']' :: r2 => some r2
      | r1 => pElements fuel r1
    else if c = '{' then
      match skipWs rest with
      | '}' :: r2 => some r2
      | r1 => pMembers fuel r1
    else none

/-- The elements of a non-empty JSON array, up to and including the closing bracket. -/
def pElements : Nat → List Char → Option (List Char)
  | 0, _ => none
  | fuel + 1, s =>
    match pValue fuel s with
    | none => none
    | some r =>
      match skipWs r with
      | ',' :: r2 => pElements fuel (skipWs r2)
      | ']' :: r2 => some r2
      | _ => none

/-- The members of a non-empty JSON object, up to and including the closing brace. -/
def pMembers : Nat → List Char → Option (List Char)
  | 0, _ => none
  | fuel + 1, s =>
    match s with
    | '"' :: rest =>
      (match pString fuel rest with
       | none => none
       | some r =>
         match skipWs r with
         | ':' :: r2 =>
           (match pValue fuel (skipWs r2) with
            | none => none
            | some r3 =>
              match skipWs r3 with
              | ',' :: r4 => pMembers fuel (skipWs r4)
              | '}' :: r4 => some r4
              | _ => none)
         | _ => none)
    | _ => none

end

/-- Whether `json.Unmarshal(data, &js)` with a generic `interface\x7b\x7d` target
succeeds on `data`: one well-formed JSON value with optional surrounding
whitespace. The fuel `data.length + 1` bounds the number of parser entries,
each of which consumes at least one distinct character. -/
def jsonValid (data : List Char) : Bool :=
  match pValue (data.length + 1) (skipWs data) with
  | some r => (skipWs r).isEmpty
  | none => false

/-- The data fields of `ModelsCache` (models.go lines 16-23): the cached bytes,
the time of the last successful fetch, and the TTL. The mutex and the two
collaborator handles (token manager, HTTP client) carry no cached state; the
collaborators' behaviour enters the embedding through `RefreshWorld`. -/
structure ModelsCache where
  modelsJSON : List Char
  lastFetch : Nat
  ttl : Nat
deriving DecidableEq

/-- What `httpClient.Do` handed back: the status code, the status text
(`resp.Status`), and what `io.ReadAll(resp.Body)` returns — the bytes read
and an optional read error (Go's ReadAll returns both). -/
structure HttpResponse where
  statusCode : Nat
  status : List Char
  bodyData : List Char
  bodyReadErr : Option (List Char)
deriving DecidableEq

/-- The outcomes of the external interactions one execution of `refresh`
performs, in program order: `tokenManager.GetToken`, building the request
with `http.NewRequestWithContext`, and `httpClient.Do`. -/
structure RefreshWorld where
  tokenResult : Except (List Char) (List Char)
  newRequestErr : Option (List Char)
  doResult : Except (List Char) HttpResponse

/-- The distinct error returns of `refresh` (models.go lines 63-104), one
constructor per `return`-with-error site, carrying what the wrapped message
carries. `apiError` is the non-200 path: `fmt.Errorf("models API error: %s - %s",
resp.Status, string(body))`. -/
inductive RefreshError
  | tokenError (msg : List Char)
  | requestError (msg : List Char)
  | transportError (msg : List Char)
  | apiError (status : List Char) (body : List Char)
  | readError (msg : List Char)
  | invalidJSON (data : List Char)
deriving DecidableEq

/-- The fetch-and-validate part of `refresh` (models.go lines 64-97): every
early `return err` becomes `.error`, and reaching the final commit (lines
99-102) becomes `.ok data`. Checks happen in source order: token, request
construction, transport, `resp.StatusCode != 200` (the non-200 branch reads
the body ignoring any read error), body read, JSON well-formedness. -/
def fetchModels (w : RefreshWorld) : Except RefreshError (List Char) :=
  match w.tokenResult with
  | .error e => .error (.tokenError e)
  | .ok _token =>
    match w.newRequestErr with
    | some e => .error (.requestError e)
    | none =>
      match w.doResult with
      | .error e => .error (.transportError e)
      | .ok resp =>
        if resp.statusCode ≠ 200 then
          .error (.apiError resp.status resp.bodyData)
        else
          match resp.bodyReadErr with
          | some e => .error (.readError e)
          | none =>
            if jsonValid resp.bodyData then .ok resp.bodyData
            else .error (.invalidJSON resp.bodyData)

/-- `refresh` (models.go lines 63-104): on any failure the state is returned
untouched; on success `modelsJSON` and `lastFetch` are replaced together
under the write lock (lines 99-102). -/
def refresh (w : RefreshWorld) (now : Nat) (c : ModelsCache) :
    ModelsCache × Option RefreshError :=
  match fetchModels w with
  | .error e => (c, some e)
  | .ok data => ({ c with modelsJSON := data, lastFetch := now }, none)

/-- A Go context value, as far as the cache observes one: the caller's own
context or `context.Background()`. -/
inductive GoContext
  | background
  | caller (id : Nat)
deriving DecidableEq

/-- What one call to `GetModels` observably does: its return value (`Except`
mirroring `([]byte, error)`), whether it spawned `go c.refresh(...)`, and the
context that spawned refresh was given. -/
structure GetModelsResult where
  result : Except (List Char) (List Char)
  refreshScheduled : Bool
  refreshCtx : Option GoContext

/-- `GetModels` (models.go lines 44-60). The snapshot under the read lock
copies `modelsJSON` and computes `expired`; the fresh path returns at line 51
without scheduling anything; otherwise line 55 spawns `refresh` with
`context.Background()` (the caller's `ctx` is never used), and the call
returns the stale bytes if any, else the error `"models not available"`.
The call itself never runs a refresh: its result is a function of the
snapshot alone, so no refresh outcome (or wait on one) can reach the caller. -/
def GetModels (_ctx : GoContext) (now : Nat) (c : ModelsCache) : GetModelsResult :=
  let models := c.modelsJSON
  let expired : Bool := decide (now - c.lastFetch > c.ttl)
  if !expired && decide (models.length > 0) then
    { result := .ok models, refreshScheduled := false, refreshCtx := none }
  else if models.length > 0 then
    { result := .ok models, refreshScheduled := true, refreshCtx := some .background }
  else
    { result := .error (String.toList "models not available"),
      refreshScheduled := true, refreshCtx := some .background }

/-- `NewModelsCache` (models.go lines 28-41): build the zero-valued state and
run one synchronous `refresh`; its failure is returned and no cache is
produced. (The `httpClient == nil` default at lines 29-31 picks a collaborator
and is not observable in the state.) -/
def NewModelsCache (w : RefreshWorld) (now : Nat) (ttl : Nat) :
    Except RefreshError ModelsCache :=
  let cache : ModelsCache := { modelsJSON := [], lastFetch := 0, ttl := ttl }
  match refresh w now cache with
  | (_, some e) => .error e
  | (c, none) => .ok c

/-- The file system as the persistence code observes it: a partial map from
paths to contents (`none` = `os.ReadFile` fails on that path). -/
abbrev FileSystem := String → Option (List Char)

/-- `SaveToFile` (models.go lines 107-114): with nothing cached it returns
the error `"no models to save"` and writes nothing; otherwise `os.WriteFile`
stores the raw blob bytes verbatim at `path`. -/
def SaveToFile (c : ModelsCache) (fs : FileSystem) (path : String) :
    FileSystem × Option (List Char) :=
  if c.modelsJSON.length = 0 then
    (fs, some (String.toList "no models to save"))
  else
    (fun p => if p = path then some c.modelsJSON else fs p, none)

/-- The error returns of `LoadFromFile`: the `os.ReadFile` error passed
through, or the `"invalid models JSON"` wrap of the parse error. -/
inductive LoadError
  | readFail
  | invalidJSON (data : List Char)
deriving DecidableEq

/-- `LoadFromFile` (models.go lines 117-132): read the file (failure returns
the read error, state untouched), validate with the same generic
`json.Unmarshal` as `refresh`, and on success commit the bytes with
`lastFetch = time.Now()` under the write lock. -/
def LoadFromFile (fs : FileSystem) (path : String) (now : Nat) (c : ModelsCache) :
    ModelsCache × Option LoadError :=
  match fs path with
  | none => (c, some .readFail)
  | some data =>
    if jsonValid data then
      ({ c with modelsJSON := data, lastFetch := now }, none)
    else
      (c, some (.invalidJSON data))

end Copilot

namespace Config

/-- The process environment: a partial map from variable names to values
(`none` = not set; a variable set to the empty string maps to `some ""`). -/
abbrev Env := String → Option String

/-- `getEnv` (config part, lines 89-94): `os.LookupEnv`, with a default for
an unset variable. -/
def getEnv (env : Env) (key dflt : String) : String :=
  match env key with
  | some v => v
  | none => dflt

/-- The proxy-selection prefix of `Load` (config part, lines 34-50): six
`getEnv` lookups, each taken only when everything before it came out empty. -/
def loadHTTPProxy (env : Env) : String :=
  let p0 := getEnv env "HTTPS_PROXY" ""
  let p1 := if p0 = "" then getEnv env "https_proxy" "" else p0
  let p2 := if p1 = "" then getEnv env "HTTP_PROXY" "" else p1
  let p3 := if p2 = "" then getEnv env "http_proxy" "" else p2
  let p4 := if p3 = "" then getEnv env "ALL_PROXY" "" else p3
  let p5 := if p4 = "" then getEnv env "all_proxy" "" else p4
  p5

/-- Modelled from the spec's words for comparison ("checked in a fixed
precedence order: HTTPS-specific, then HTTP-specific, then catch-all"): the
variable names in precedence order. -/
def proxyPrecedence : List String :=
  ["HTTPS_PROXY", "https_proxy", "HTTP_PROXY", "http_proxy", "ALL_PROXY", "all_proxy"]

/-- Modelled from the spec's words for comparison: the first non-empty string
of the list, the empty string when there is none. -/
def firstNonEmpty : List String → String
  | [] => ""
  | s :: rest => if s = "" then firstNonEmpty rest else s

end Config

namespace Copilot

/-- The empty byte sequence is not well-formed JSON (`json.Unmarshal` fails
with "unexpected end of JSON input"). -/
theorem jsonValid_nil : jsonValid [] = false := rfl

/-- Bytes that `fetchModels` hands to the commit have passed the generic
JSON validation. -/
theorem fetchModels_ok_valid (w : RefreshWorld) (data : List Char)
    (h : fetchModels w = Except.ok data) : jsonValid data = true := by
  unfold fetchModels at h
  repeat' split at h
  all_goals simp_all

/-- Valid JSON bytes are non-empty. -/
theorem valid_ne_nil (data : List Char) (h : jsonValid data = true) : data ≠ [] := by
  intro hnil
  rw [hnil, jsonValid_nil] at h
  exact Bool.false_ne_true h

/-- A JSON object used as a typical stored blob in concrete instances. -/
def objBlob : List Char := String.toList "\x7b\"data\":[\x7b\"id\":\"gpt-4\"\x7d]\x7d"

/-- A well-formed JSON array: the payload of spec Scenario E. -/
def arrayBlob : List Char := String.toList "[1,2,3]"

/-- A seeded cache holding `objBlob`, fetched at time 5 with a TTL of 600. -/
def st0 : ModelsCache := { modelsJSON := objBlob, lastFetch := 5, ttl := 600 }

/-- A seeded cache whose TTL (10) has elapsed by time 100. -/
def cStale : ModelsCache := { modelsJSON := objBlob, lastFetch := 0, ttl := 10 }

/-- A file system holding `arrayBlob` at "models.json". -/
def fsArray : FileSystem := fun p => if p = "models.json" then some arrayBlob else none

/-- A file system holding `objBlob` at "models.json". -/
def fsObj : FileSystem := fun p => if p = "models.json" then some objBlob else none

/-- A concrete token value for instantiating refresh environments. -/
def tokChars : List Char := String.toList "tok"

/-- A 200 response carrying `body` with no read error. -/
def okResp (body : List Char) : HttpResponse :=
  { statusCode := 200, status := String.toList "200 OK", bodyData := body,
    bodyReadErr := none }

/-- A refresh environment in which everything up to payload validation
succeeds and the 200 response body is `body`. -/
def worldOk (body : List Char) : RefreshWorld :=
  { tokenResult := .ok tokChars, newRequestErr := none, doResult := .ok (okResp body) }

/-- A 201 response carrying a valid JSON object body. -/
def resp201 : HttpResponse :=
  { statusCode := 201, status := String.toList "201 Created",
    bodyData := objBlob, bodyReadErr := none }

/-- A refresh environment whose response is `resp201`. -/
def world201 : RefreshWorld :=
  { tokenResult := .ok tokChars, newRequestErr := none, doResult := .ok resp201 }

/-- C1 counterexample: `LoadFromFile` of a file containing the JSON array
`[1,2,3]` — well-formed JSON that is not an object — succeeds and commits the
array bytes, instead of failing with InvalidPayloadError and leaving state
unchanged as the claim requires. -/
theorem C1_counterexample :
    (LoadFromFile fsArray "models.json" 100 st0).2 = none ∧
    (LoadFromFile fsArray "models.json" 100 st0).1.modelsJSON = arrayBlob ∧
    (LoadFromFile fsArray "models.json" 100 st0).1 ≠ st0 := by
  refine ⟨rfl, rfl, ?_⟩
  decide

/-- C1 (amended): the payload validation of both a 2xx refresh body and a
loaded file accepts every well-formed JSON value — object, array or scalar
alike — and commits it; only bytes that are not well-formed JSON make the
operation fail with the invalid-JSON error, leaving the stored blob and
lastFetchTime unchanged. -/
theorem C1_validation_amended
    (w : RefreshWorld) (resp : HttpResponse) (t : List Char) (now : Nat) (c : ModelsCache)
    (fs : FileSystem) (path : String) (now2 : Nat) (c2 : ModelsCache) (data : List Char)
    (htok : w.tokenResult = Except.ok t) (hreq : w.newRequestErr = none)
    (hdo : w.doResult = Except.ok resp) (h200 : resp.statusCode = 200)
    (hread : resp.bodyReadErr = none) (hfile : fs path = some data) :
    (jsonValid resp.bodyData = false →
      refresh w now c = (c, some (RefreshError.invalidJSON resp.bodyData))) ∧
    (jsonValid resp.bodyData = true →
      refresh w now c = ({ c with modelsJSON := resp.bodyData, lastFetch := now }, none)) ∧
    (jsonValid data = false →
      LoadFromFile fs path now2 c2 = (c2, some (LoadError.invalidJSON data))) ∧
    (jsonValid data = true →
      LoadFromFile fs path now2 c2 =
        ({ c2 with modelsJSON := data, lastFetch := now2 }, none)) := by
  refine ⟨?_, ?_, ?_, ?_⟩ <;> intro hv <;>
    simp [refresh, fetchModels, LoadFromFile, htok, hreq, hdo, h200, hread, hfile, hv]

/-- C1 witness: the amended theorem at a concrete accepting environment (a
200 response and a file both carrying the object blob). -/
theorem C1_validation_amended_witness :
    (jsonValid (okResp objBlob).bodyData = false →
      refresh (worldOk objBlob) 7 st0 =
        (st0, some (RefreshError.invalidJSON (okResp objBlob).bodyData))) ∧
    (jsonValid (okResp objBlob).bodyData = true →
      refresh (worldOk objBlob) 7 st0 =
        ({ st0 with modelsJSON := (okResp objBlob).bodyData, lastFetch := 7 }, none)) ∧
    (jsonValid objBlob = false →
      LoadFromFile fsObj "models.json" 9 st0 =
        (st0, some (LoadError.invalidJSON objBlob))) ∧
    (jsonValid objBlob = true →
      LoadFromFile fsObj "models.json" 9 st0 =
        ({ st0 with modelsJSON := objBlob, lastFetch := 9 }, none)) :=
  C1_validation_amended (worldOk objBlob) (okResp objBlob) tokChars 7 st0
    fsObj "models.json" 9 st0 objBlob rfl rfl rfl rfl rfl rfl

/-- C2: when the cached entry is stale (`now - lastFetch > ttl`), `GetModels`
schedules a background refresh under `context.Background()` — independent of
the caller's context, which the code never even reads — and returns the stored
blob immediately with no error when one is present, or the
"models not available" error when none is. The call's result is a function of
the state snapshot alone (see `GetModels`), so it neither waits on the network
nor surfaces the background refresh's outcome. -/
theorem C2_stale_serve (ctx : GoContext) (now : Nat) (c : ModelsCache)
    (hstale : now - c.lastFetch > c.ttl) :
    (GetModels ctx now c).refreshScheduled = true ∧
    (GetModels ctx now c).refreshCtx = some GoContext.background ∧
    (c.modelsJSON ≠ [] → (GetModels ctx now c).result = Except.ok c.modelsJSON) ∧
    (c.modelsJSON = [] →
      (GetModels ctx now c).result = Except.error (String.toList "models not available")) := by
  have hexp : decide (now - c.lastFetch > c.ttl) = true := by simpa using hstale
  by_cases hm : c.modelsJSON = [] <;>
    simp [GetModels, hexp, hm, List.length_pos]

/-- C2 witness: the stale-serve theorem at a concrete stale cache and a
concrete caller context. -/
theorem C2_stale_serve_witness :
    (GetModels (GoContext.caller 7) 100 cStale).refreshScheduled = true ∧
    (GetModels (GoContext.caller 7) 100 cStale).refreshCtx = some GoContext.background ∧
    (cStale.modelsJSON ≠ [] →
      (GetModels (GoContext.caller 7) 100 cStale).result = Except.ok cStale.modelsJSON) ∧
    (cStale.modelsJSON = [] →
      (GetModels (GoContext.caller 7) 100 cStale).result =
        Except.error (String.toList "models not available")) :=
  C2_stale_serve (GoContext.caller 7) 100 cStale (by decide)

/-- C3: a failing refresh returns the state untouched — blob and lastFetchTime
byte-identical to their pre-call values — and a successful refresh replaces
`modelsJSON` and `lastFetch` together with freshly validated bytes; no other
mutation exists. -/
theorem C3_refresh_no_clobber (w : RefreshWorld) (now : Nat) (c : ModelsCache) :
    (∀ e, (refresh w now c).2 = some e → (refresh w now c).1 = c) ∧
    ((refresh w now c).2 = none →
      ∃ data, jsonValid data = true ∧
        (refresh w now c).1 = { c with modelsJSON := data, lastFetch := now }) := by
  cases hf : fetchModels w with
  | error e => simp [refresh, hf]
  | ok data =>
    exact ⟨by simp [refresh, hf],
      fun _ => ⟨data, fetchModels_ok_valid w data hf, by simp [refresh, hf]⟩⟩

/-- C4: while a blob is present and within TTL (`now - lastFetch ≤ ttl`),
`GetModels` returns exactly the stored bytes with no error and schedules no
refresh; this path touches only the state snapshot, so it performs no I/O. -/
theorem C4_fresh_no_refresh (ctx : GoContext) (now : Nat) (c : ModelsCache)
    (hfresh : now - c.lastFetch ≤ c.ttl) (hblob : c.modelsJSON ≠ []) :
    (GetModels ctx now c).result = Except.ok c.modelsJSON ∧
    (GetModels ctx now c).refreshScheduled = false ∧
    (GetModels ctx now c).refreshCtx = none := by
  have hexp : decide (now - c.lastFetch > c.ttl) = false := by
    simp [Nat.not_lt.mpr hfresh]
  simp [GetModels, hexp, List.length_pos, hblob]

/-- C4 witness: the fresh-path theorem at a concrete fresh cache. -/
theorem C4_fresh_no_refresh_witness :
    (GetModels (GoContext.caller 3) 100 st0).result = Except.ok st0.modelsJSON ∧
    (GetModels (GoContext.caller 3) 100 st0).refreshScheduled = false ∧
    (GetModels (GoContext.caller 3) 100 st0).refreshCtx = none :=
  C4_fresh_no_refresh (GoContext.caller 3) 100 st0 (by decide) (by decide)

/-- C5 counterexample: a 201 response — a 2xx status — with a perfectly valid
JSON object body is rejected by `refresh` (the code tests
`resp.StatusCode != 200`), where the claim says any 2xx is accepted and
proceeds to body validation. -/
theorem C5_counterexample :
    (refresh world201 50 st0).2 =
      some (RefreshError.apiError (String.toList "201 Created") objBlob) ∧
    (refresh world201 50 st0).1 = st0 := by
  constructor <;> rfl

/-- C5 (amended): only a response with status exactly 200 proceeds to body
validation; every other status — other 2xx codes included — makes `refresh`
fail with the API error carrying the response status text and the response
body, leaving stored state untouched. -/
theorem C5_status_amended (w : RefreshWorld) (resp : HttpResponse) (t : List Char)
    (now : Nat) (c : ModelsCache)
    (htok : w.tokenResult = Except.ok t) (hreq : w.newRequestErr = none)
    (hdo : w.doResult = Except.ok resp) :
    (resp.statusCode ≠ 200 →
      refresh w now c = (c, some (RefreshError.apiError resp.status resp.bodyData))) ∧
    (resp.statusCode = 200 → resp.bodyReadErr = none →
      refresh w now c =
        (if jsonValid resp.bodyData then
           ({ c with modelsJSON := resp.bodyData, lastFetch := now }, none)
         else (c, some (RefreshError.invalidJSON resp.bodyData)))) := by
  constructor
  · intro hne
    simp [refresh, fetchModels, htok, hreq, hdo, hne]
  · intro h200 hread
    by_cases hv : jsonValid resp.bodyData <;>
      simp [refresh, fetchModels, htok, hreq, hdo, h200, hread, hv]

/-- C5 witness: the amended status theorem at the concrete 201 environment. -/
theorem C5_status_amended_witness :
    (resp201.statusCode ≠ 200 →
      refresh world201 50 st0 =
        (st0, some (RefreshError.apiError resp201.status resp201.bodyData))) ∧
    (resp201.statusCode = 200 → resp201.bodyReadErr = none →
      refresh world201 50 st0 =
        (if jsonValid resp201.bodyData then
           ({ st0 with modelsJSON := resp201.bodyData, lastFetch := 50 }, none)
         else (st0, some (RefreshError.invalidJSON resp201.bodyData)))) :=
  C5_status_amended world201 resp201 tokChars 50 st0 rfl rfl rfl

/-- C6: `NewModelsCache` runs exactly one synchronous fetch-and-validate
cycle (`refresh` on the zero-valued state); when that fetch fails the
construction returns the error and produces no cache, and every cache it does
produce holds a non-empty, JSON-valid blob fetched at construction time. -/
theorem C6_construction_seeded (w : RefreshWorld) (now ttl : Nat) :
    (∀ e, fetchModels w = Except.error e → NewModelsCache w now ttl = Except.error e) ∧
    (∀ c, NewModelsCache w now ttl = Except.ok c →
      c.modelsJSON ≠ [] ∧ jsonValid c.modelsJSON = true ∧
      c.lastFetch = now ∧ c.ttl = ttl) := by
  cases hf : fetchModels w with
  | error e => constructor <;> simp [NewModelsCache, refresh, hf]
  | ok data =>
    have hv := fetchModels_ok_valid w data hf
    constructor
    · simp [hf]
    · intro c hc
      simp [NewModelsCache, refresh, hf] at hc
      rw [← hc]
      exact ⟨valid_ne_nil data hv, hv, rfl, rfl⟩

/-- C7: saving a cache that holds a (JSON-valid, as every reachable cache
does — see the C9 invariant) blob and loading the written file back commits a
blob byte-identical to the saved one and stamps `lastFetch` with the load
time, not the saved snapshot's fetch time. -/
theorem C7_save_load_roundtrip (c c2 : ModelsCache) (fs : FileSystem) (path : String)
    (now : Nat) (hblob : c.modelsJSON ≠ []) (hvalid : jsonValid c.modelsJSON = true) :
    (SaveToFile c fs path).2 = none ∧
    LoadFromFile (SaveToFile c fs path).1 path now c2 =
      ({ c2 with modelsJSON := c.modelsJSON, lastFetch := now }, none) := by
  have hlen : ¬ c.modelsJSON.length = 0 := by simpa using hblob
  constructor <;> simp [SaveToFile, LoadFromFile, hlen, hvalid]

/-- C7 witness: the round-trip theorem at a concrete seeded cache and an
empty file system. -/
theorem C7_save_load_roundtrip_witness :
    (SaveToFile st0 (fun _ => none) "snap.json").2 = none ∧
    LoadFromFile (SaveToFile st0 (fun _ => none) "snap.json").1 "snap.json" 42 cStale =
      ({ cStale with modelsJSON := st0.modelsJSON, lastFetch := 42 }, none) :=
  C7_save_load_roundtrip st0 cStale (fun _ => none) "snap.json" 42
    (by decide) (by decide)

/-- C8: `SaveToFile` with nothing cached fails with the "no models to save"
error and leaves the file system as it was; with a blob cached it succeeds
and the written file holds exactly the blob's bytes, every other path
untouched. -/
theorem C8_save_semantics (c : ModelsCache) (fs : FileSystem) (path : String) :
    (c.modelsJSON = [] →
      SaveToFile c fs path = (fs, some (String.toList "no models to save"))) ∧
    (c.modelsJSON ≠ [] →
      (SaveToFile c fs path).2 = none ∧
      (SaveToFile c fs path).1 path = some c.modelsJSON ∧
      ∀ p, p ≠ path → (SaveToFile c fs path).1 p = fs p) := by
  constructor
  · intro hm
    simp [SaveToFile, hm]
  · intro hm
    have hlen : ¬ c.modelsJSON.length = 0 := by simpa using hm
    refine ⟨by simp [SaveToFile, hlen], by simp [SaveToFile, hlen], ?_⟩
    intro p hp
    simp [SaveToFile, hlen, hp]

/-- The C9 invariant: the stored blob is a non-empty byte sequence that
passes the generic JSON validation. -/
def GoodBlob (c : ModelsCache) : Prop :=
  c.modelsJSON ≠ [] ∧ jsonValid c.modelsJSON = true

/-- C9: construction establishes `GoodBlob`, and both mutation paths —
`refresh` and `LoadFromFile` — preserve it, since each commits only bytes
that have just passed JSON parsing and the empty sequence never parses
(`jsonValid [] = false`); the blob is never cleared. -/
theorem C9_blob_invariant (w : RefreshWorld) (now ttl now2 : Nat)
    (c c2 : ModelsCache) (fs : FileSystem) (path : String) :
    jsonValid [] = false ∧
    (∀ c0, NewModelsCache w now ttl = Except.ok c0 → GoodBlob c0) ∧
    (GoodBlob c → GoodBlob (refresh w now c).1) ∧
    (GoodBlob c2 → GoodBlob (LoadFromFile fs path now2 c2).1) := by
  refine ⟨jsonValid_nil, ?_, ?_, ?_⟩
  · intro c0 hc0
    cases hf : fetchModels w with
    | error e => simp [NewModelsCache, refresh, hf] at hc0
    | ok data =>
      have hv := fetchModels_ok_valid w data hf
      simp [NewModelsCache, refresh, hf] at hc0
      rw [← hc0]
      exact ⟨valid_ne_nil data hv, hv⟩
  · intro hg
    cases hf : fetchModels w with
    | error e => simpa [refresh, hf] using hg
    | ok data =>
      have hv := fetchModels_ok_valid w data hf
      exact ⟨by simp [refresh, hf, valid_ne_nil data hv],
        by simp [refresh, hf, hv]⟩
  · intro hg
    cases hfile : fs path with
    | none => simpa [LoadFromFile, hfile] using hg
    | some data =>
      by_cases hv : jsonValid data
      · exact ⟨by simp [LoadFromFile, hfile, hv, valid_ne_nil data hv],
          by simp [LoadFromFile, hfile, hv]⟩
      · simpa [LoadFromFile, hfile, hv] using hg

end Copilot

namespace Config

/-- C10: the proxy URL computed by `Load` is exactly the first non-empty value
of the six proxy environment variables in the fixed precedence order
HTTPS_PROXY, https_proxy, HTTP_PROXY, http_proxy, ALL_PROXY, all_proxy — and
the empty string when all six come out empty. -/
theorem C10_proxy_precedence (env : Env) :
    loadHTTPProxy env =
      firstNonEmpty (proxyPrecedence.map (fun k => getEnv env k "")) := by
  simp only [loadHTTPProxy, proxyPrecedence, List.map_cons, List.map_nil]
  by_cases h0 : getEnv env "HTTPS_PROXY" "" = "" <;>
    by_cases h1 : getEnv env "https_proxy" "" = "" <;>
      by_cases h2 : getEnv env "HTTP_PROXY" "" = "" <;>
        by_cases h3 : getEnv env "http_proxy" "" = "" <;>
          by_cases h4 : getEnv env "ALL_PROXY" "" = "" <;>
            by_cases h5 : getEnv env "all_proxy" "" = "" <;>
              simp [firstNonEmpty, h0, h1, h2, h3, h4, h5]

end Config
